import Mathlib

/-!
Verification of `src/chem_equilibrium.py`: a weak-acid dissociation
equilibrium solver.  The Python class `WeakAcidSystem(c0, Ka)` exposes
`solve_equilibrium`, which solves `x^2 + Ka*x - Ka*c0 = 0`, filters the
roots to the physical range `0 <= x <= c0`, takes the maximum candidate,
and returns the record `{[H+] = x, [A-] = x, [HA] = c0 - x, pH = -log10 x}`.
Two `ValueError`s can be raised explicitly (negative discriminant and empty
candidate list); additionally `math.log10` itself raises a `ValueError`
("math domain error") when its argument is not strictly positive.

The embedding below models the floating-point program over the reals and
models each raised exception as an `Except.error` value.
-/

namespace ChemEquilibrium

/-- The dataclass `WeakAcidSystem` with fields `c0` (initial HA
concentration) and `Ka` (acid dissociation constant). -/
structure WeakAcidSystem where
  c0 : ℝ
  Ka : ℝ

/-- The exceptions `solve_equilibrium` can raise: the explicit
`ValueError` at the negative-discriminant check (line 32), the explicit
`ValueError` at the empty-candidates check (line 40), and the
`ValueError` ("math domain error") that Python's `math.log10` raises on a
non-positive argument (line 52). -/
inductive SolveError where
  | NoRealSolution
  | NoPhysicalSolution
  | MathDomainError
deriving DecidableEq

/-- The dictionary returned by `solve_equilibrium`:
keys `"[H+]"`, `"[A-]"`, `"[HA]"`, `"pH"` in source order. -/
structure EquilibriumResult where
  h_plus : ℝ
  a_minus : ℝ
  ha : ℝ
  pH : ℝ

/-- `disc = b*b - 4*a*c` with `a = 1.0`, `b = Ka`, `c = -Ka*c0`
(lines 26-30 of the source). -/
noncomputable def disc (s : WeakAcidSystem) : ℝ :=
  s.Ka * s.Ka - 4 * 1 * (-s.Ka * s.c0)

/-- `x1 = (-b + math.sqrt(disc)) / (2*a)` (line 34). -/
noncomputable def x1 (s : WeakAcidSystem) : ℝ :=
  (-s.Ka + Real.sqrt (disc s)) / (2 * 1)

/-- `x2 = (-b - math.sqrt(disc)) / (2*a)` (line 35). -/
noncomputable def x2 (s : WeakAcidSystem) : ℝ :=
  (-s.Ka - Real.sqrt (disc s)) / (2 * 1)

/-- `candidates = [x for x in (x1, x2) if 0 <= x <= self.c0]` (line 38). -/
noncomputable def candidates (s : WeakAcidSystem) : List ℝ :=
  [x1 s, x2 s].filter (fun x => decide (0 ≤ x ∧ x ≤ s.c0))

/-- Lines 30-42 of `solve_equilibrium`: the discriminant check, the
physical filter, and the selection `x = max(candidates)`.  Python's
`max` on an empty list is never reached because the `if not candidates`
check raises first; `List.max?` returning `none` exactly on `[]` mirrors
that. -/
noncomputable def selectRoot (s : WeakAcidSystem) : Except SolveError ℝ :=
  if disc s < 0 then .error .NoRealSolution
  else
    match (candidates s).max? with
    | none => .error .NoPhysicalSolution
    | some x => .ok x

/-- Python's `math.log10`: raises `ValueError` ("math domain error") on a
non-positive argument, otherwise returns the base-10 logarithm. -/
noncomputable def math_log10 (x : ℝ) : Except SolveError ℝ :=
  if x ≤ 0 then .error .MathDomainError else .ok (Real.logb 10 x)

/-- `WeakAcidSystem.solve_equilibrium` (lines 18-53): select the root,
then build the result dictionary, computing `pH = -math.log10(h_conc)`. -/
noncomputable def solve_equilibrium (s : WeakAcidSystem) :
    Except SolveError EquilibriumResult := do
  let x ← selectRoot s
  let l ← math_log10 x
  return { h_plus := x, a_minus := x, ha := s.c0 - x, pH := -l }

/-! ### Basic facts on the positive-input domain -/

theorem disc_eq (s : WeakAcidSystem) : disc s = s.Ka * s.Ka + 4 * s.Ka * s.c0 := by
  unfold disc; ring

theorem disc_pos (s : WeakAcidSystem) (hc : 0 < s.c0) (hK : 0 < s.Ka) :
    0 < disc s := by
  rw [disc_eq]; nlinarith

theorem sqrt_disc_gt_Ka (s : WeakAcidSystem) (hc : 0 < s.c0) (hK : 0 < s.Ka) :
    s.Ka < Real.sqrt (disc s) := by
  rw [show s.Ka = Real.sqrt (s.Ka ^ 2) from (Real.sqrt_sq hK.le).symm]
  apply Real.sqrt_lt_sqrt (sq_nonneg _)
  rw [disc_eq]; nlinarith

theorem x1_pos (s : WeakAcidSystem) (hc : 0 < s.c0) (hK : 0 < s.Ka) :
    0 < x1 s := by
  have h := sqrt_disc_gt_Ka s hc hK
  unfold x1; linarith

theorem x1_le_c0 (s : WeakAcidSystem) (hc : 0 < s.c0) (hK : 0 < s.Ka) :
    x1 s ≤ s.c0 := by
  have h : Real.sqrt (disc s) ≤ s.Ka + 2 * s.c0 := by
    rw [show s.Ka + 2 * s.c0 = Real.sqrt ((s.Ka + 2 * s.c0) ^ 2) from
      (Real.sqrt_sq (by linarith)).symm]
    apply Real.sqrt_le_sqrt
    rw [disc_eq]; nlinarith
  unfold x1; linarith

theorem x2_neg (s : WeakAcidSystem) (_hc : 0 < s.c0) (hK : 0 < s.Ka) :
    x2 s < 0 := by
  have h : 0 ≤ Real.sqrt (disc s) := Real.sqrt_nonneg _
  unfold x2; nlinarith

theorem candidates_of_pos (s : WeakAcidSystem) (hc : 0 < s.c0) (hK : 0 < s.Ka) :
    candidates s = [x1 s] := by
  have h1 : 0 ≤ x1 s ∧ x1 s ≤ s.c0 := ⟨(x1_pos s hc hK).le, x1_le_c0 s hc hK⟩
  have h2 : ¬(0 ≤ x2 s ∧ x2 s ≤ s.c0) := by
    intro h
    exact absurd h.1 (not_le.mpr (x2_neg s hc hK))
  simp [candidates, List.filter, h1, h2]

theorem selectRoot_of_pos (s : WeakAcidSystem) (hc : 0 < s.c0) (hK : 0 < s.Ka) :
    selectRoot s = .ok (x1 s) := by
  unfold selectRoot
  rw [if_neg (not_lt.mpr (disc_pos s hc hK).le), candidates_of_pos s hc hK]
  rfl

theorem solve_of_pos (s : WeakAcidSystem) (hc : 0 < s.c0) (hK : 0 < s.Ka) :
    solve_equilibrium s =
      .ok ⟨x1 s, x1 s, s.c0 - x1 s, -(Real.logb 10 (x1 s))⟩ := by
  unfold solve_equilibrium
  rw [selectRoot_of_pos s hc hK]
  simp only [bind, Except.bind, math_log10]
  rw [if_neg (not_le.mpr (x1_pos s hc hK))]
  rfl

/-- The selected root satisfies the mass-action equation
`x^2 + Ka*x - Ka*c0 = 0`. -/
theorem x1_quad (s : WeakAcidSystem) (hc : 0 < s.c0) (hK : 0 < s.Ka) :
    x1 s * x1 s + s.Ka * x1 s - s.Ka * s.c0 = 0 := by
  have hs : Real.sqrt (disc s) * Real.sqrt (disc s) = disc s :=
    Real.mul_self_sqrt (disc_pos s hc hK).le
  have hd := disc_eq s
  unfold x1
  field_simp
  nlinarith [hs, hd]

/-! ### Inversion lemmas on arbitrary inputs -/

theorem of_mem_candidates {s : WeakAcidSystem} {x : ℝ} (h : x ∈ candidates s) :
    0 ≤ x ∧ x ≤ s.c0 :=
  of_decide_eq_true (List.mem_filter.mp h).2

theorem candidates_eq_nil_iff (s : WeakAcidSystem) :
    candidates s = [] ↔
      ¬(0 ≤ x1 s ∧ x1 s ≤ s.c0) ∧ ¬(0 ≤ x2 s ∧ x2 s ≤ s.c0) := by
  simp [candidates, List.filter_eq_nil_iff]

theorem selectRoot_of_neg {s : WeakAcidSystem} (hd : disc s < 0) :
    selectRoot s = .error .NoRealSolution := by
  unfold selectRoot; rw [if_pos hd]

theorem selectRoot_of_nil {s : WeakAcidSystem} (hd : ¬disc s < 0)
    (hc : candidates s = []) : selectRoot s = .error .NoPhysicalSolution := by
  unfold selectRoot; rw [if_neg hd, hc]; rfl

theorem selectRoot_of_max {s : WeakAcidSystem} {x : ℝ} (hd : ¬disc s < 0)
    (hm : (candidates s).max? = some x) : selectRoot s = .ok x := by
  unfold selectRoot; rw [if_neg hd, hm]

theorem solve_of_selectRoot_error {s : WeakAcidSystem} {e : SolveError}
    (h : selectRoot s = .error e) : solve_equilibrium s = .error e := by
  unfold solve_equilibrium; rw [h]; rfl

theorem solve_of_selectRoot_ok_nonpos {s : WeakAcidSystem} {x : ℝ}
    (h : selectRoot s = .ok x) (hx : x ≤ 0) :
    solve_equilibrium s = .error .MathDomainError := by
  unfold solve_equilibrium
  rw [h]
  simp only [bind, Except.bind, math_log10]
  rw [if_pos hx]

theorem solve_of_selectRoot_ok_pos {s : WeakAcidSystem} {x : ℝ}
    (h : selectRoot s = .ok x) (hx : ¬x ≤ 0) :
    solve_equilibrium s =
      .ok ⟨x, x, s.c0 - x, -(Real.logb 10 x)⟩ := by
  unfold solve_equilibrium
  rw [h]
  simp only [bind, Except.bind, math_log10]
  rw [if_neg hx]
  rfl

/-- Full inversion of a successful call: the returned record is built from
the maximal candidate, which is a member of the filtered list and hence
lies in `[0, c0]`, and which passed the `math.log10` domain check. -/
theorem solve_ok_inv {s : WeakAcidSystem} {r : EquilibriumResult}
    (h : solve_equilibrium s = .ok r) :
    ∃ x, (candidates s).max? = some x ∧ x ∈ candidates s ∧
      0 ≤ x ∧ x ≤ s.c0 ∧ 0 < x ∧
      r = ⟨x, x, s.c0 - x, -(Real.logb 10 x)⟩ := by
  by_cases hd : disc s < 0
  · rw [solve_of_selectRoot_error (selectRoot_of_neg hd)] at h
    exact absurd h (by simp)
  · rcases hm : (candidates s).max? with _ | x
    · rw [solve_of_selectRoot_error
        (selectRoot_of_nil hd (List.max?_eq_none_iff.mp hm))] at h
      exact absurd h (by simp)
    · have hsel := selectRoot_of_max hd hm
      by_cases hx : x ≤ 0
      · rw [solve_of_selectRoot_ok_nonpos hsel hx] at h
        exact absurd h (by simp)
      · rw [solve_of_selectRoot_ok_pos hsel hx] at h
        have hmem : x ∈ candidates s :=
          List.max?_mem (fun a b => max_choice a b) hm
        have hb := of_mem_candidates hmem
        exact ⟨x, rfl, hmem, hb.1, hb.2, not_le.mp hx, (Except.ok.inj h).symm⟩

/-! ### Concrete evaluation at c0 = 2, Ka = 1 (discriminant 9, root 1) -/

theorem disc_two_one : disc ⟨2, 1⟩ = 9 := by unfold disc; norm_num

theorem x1_two_one : x1 ⟨2, 1⟩ = 1 := by
  unfold x1
  rw [disc_two_one, show (9 : ℝ) = 3 ^ 2 by norm_num, Real.sqrt_sq (by norm_num)]
  norm_num

theorem solve_two_one : solve_equilibrium ⟨2, 1⟩ = .ok ⟨1, 1, 1, 0⟩ := by
  rw [solve_of_pos ⟨2, 1⟩ (by norm_num) (by norm_num), x1_two_one]
  norm_num [Real.logb_one]

/-! ### Claim theorems -/

/-- C1: for every c0 > 0 and Ka > 0, `solve_equilibrium` returns
successfully, and the returned record satisfies 0 ≤ h_plus ≤ c0,
ha = c0 − h_plus, and a_minus = h_plus exactly. -/
theorem C1_solve_total_and_consistent (c0 Ka : ℝ) (hc : 0 < c0) (hK : 0 < Ka) :
    ∃ r, solve_equilibrium ⟨c0, Ka⟩ = .ok r ∧
      0 ≤ r.h_plus ∧ r.h_plus ≤ c0 ∧ r.ha = c0 - r.h_plus ∧
      r.a_minus = r.h_plus := by
  refine ⟨_, solve_of_pos ⟨c0, Ka⟩ hc hK, ?_, ?_, rfl, rfl⟩
  · exact (x1_pos ⟨c0, Ka⟩ hc hK).le
  · exact x1_le_c0 ⟨c0, Ka⟩ hc hK

theorem C1_witness :
    ∃ r, solve_equilibrium ⟨2, 1⟩ = .ok r ∧
      0 ≤ r.h_plus ∧ r.h_plus ≤ 2 ∧ r.ha = 2 - r.h_plus ∧
      r.a_minus = r.h_plus :=
  C1_solve_total_and_consistent 2 1 (by norm_num) (by norm_num)

/-- C3: on the precondition domain c0 > 0, Ka > 0, neither solver-level
error branch is reachable: the discriminant is nonnegative, the physical
filter is nonempty, and `solve_equilibrium` returns successfully. -/
theorem C3_no_error_reachable (c0 Ka : ℝ) (hc : 0 < c0) (hK : 0 < Ka) :
    0 ≤ disc ⟨c0, Ka⟩ ∧ candidates ⟨c0, Ka⟩ ≠ [] ∧
      ∃ r, solve_equilibrium ⟨c0, Ka⟩ = .ok r := by
  refine ⟨(disc_pos ⟨c0, Ka⟩ hc hK).le, ?_, _, solve_of_pos ⟨c0, Ka⟩ hc hK⟩
  rw [candidates_of_pos ⟨c0, Ka⟩ hc hK]
  simp

theorem C3_witness :
    0 ≤ disc ⟨2, 1⟩ ∧ candidates ⟨2, 1⟩ ≠ [] ∧
      ∃ r, solve_equilibrium ⟨2, 1⟩ = .ok r :=
  C3_no_error_reachable 2 1 (by norm_num) (by norm_num)

/-- C4: for every successful call to `solve_equilibrium`, the pH field of
the result equals −log10 of the h_plus field of the same result. -/
theorem C4_pH_eq (s : WeakAcidSystem) (r : EquilibriumResult)
    (h : solve_equilibrium s = .ok r) :
    r.pH = -(Real.logb 10 r.h_plus) := by
  obtain ⟨x, -, -, -, -, -, hr⟩ := solve_ok_inv h
  rw [hr]

theorem C4_witness :
    (⟨1, 1, 1, 0⟩ : EquilibriumResult).pH =
      -(Real.logb 10 (⟨1, 1, 1, 0⟩ : EquilibriumResult).h_plus) :=
  C4_pH_eq ⟨2, 1⟩ ⟨1, 1, 1, 0⟩ solve_two_one

/-- C8: any call to `solve_equilibrium`, on any inputs whatsoever, that
returns a record rather than raising satisfies ha ≥ 0, a_minus ≥ 0 and
h_plus ≥ 0. -/
theorem C8_result_nonneg (s : WeakAcidSystem) (r : EquilibriumResult)
    (h : solve_equilibrium s = .ok r) :
    0 ≤ r.ha ∧ 0 ≤ r.a_minus ∧ 0 ≤ r.h_plus := by
  obtain ⟨x, -, -, hx0, hxc, -, hr⟩ := solve_ok_inv h
  rw [hr]
  exact ⟨by simpa using sub_nonneg.mpr hxc, hx0, hx0⟩

theorem C8_witness :
    0 ≤ (⟨1, 1, 1, 0⟩ : EquilibriumResult).ha ∧
      0 ≤ (⟨1, 1, 1, 0⟩ : EquilibriumResult).a_minus ∧
      0 ≤ (⟨1, 1, 1, 0⟩ : EquilibriumResult).h_plus :=
  C8_result_nonneg ⟨2, 1⟩ ⟨1, 1, 1, 0⟩ solve_two_one

/-- C9: for c0 > 0 and Ka > 0 the smaller root x2 is strictly negative,
the filtered candidate list is exactly the singleton [x1], and the
max-selection returns the larger root x1. -/
theorem C9_unique_candidate (c0 Ka : ℝ) (hc : 0 < c0) (hK : 0 < Ka) :
    x2 ⟨c0, Ka⟩ < 0 ∧ candidates ⟨c0, Ka⟩ = [x1 ⟨c0, Ka⟩] ∧
      selectRoot ⟨c0, Ka⟩ = .ok (x1 ⟨c0, Ka⟩) :=
  ⟨x2_neg ⟨c0, Ka⟩ hc hK, candidates_of_pos ⟨c0, Ka⟩ hc hK,
    selectRoot_of_pos ⟨c0, Ka⟩ hc hK⟩

theorem C9_witness :
    x2 ⟨2, 1⟩ < 0 ∧ candidates ⟨2, 1⟩ = [x1 ⟨2, 1⟩] ∧
      selectRoot ⟨2, 1⟩ = .ok (x1 ⟨2, 1⟩) :=
  C9_unique_candidate 2 1 (by norm_num) (by norm_num)

/-- C5: monotonicity in Ka: with c0 > 0 fixed and 0 < Ka ≤ Ka', the
h_plus returned for Ka' is at least the h_plus returned for Ka. -/
theorem C5_monotone_in_Ka (c0 Ka Ka' : ℝ) (hc : 0 < c0) (hK : 0 < Ka)
    (hKK : Ka ≤ Ka') (r r' : EquilibriumResult)
    (h : solve_equilibrium ⟨c0, Ka⟩ = .ok r)
    (h' : solve_equilibrium ⟨c0, Ka'⟩ = .ok r') :
    r.h_plus ≤ r'.h_plus := by
  have hK' : 0 < Ka' := lt_of_lt_of_le hK hKK
  rw [solve_of_pos ⟨c0, Ka⟩ hc hK] at h
  rw [solve_of_pos ⟨c0, Ka'⟩ hc hK'] at h'
  rw [← Except.ok.inj h, ← Except.ok.inj h']
  show x1 ⟨c0, Ka⟩ ≤ x1 ⟨c0, Ka'⟩
  set x := x1 ⟨c0, Ka⟩ with hxdef
  set y := x1 ⟨c0, Ka'⟩ with hydef
  have hq : x * x + Ka * x - Ka * c0 = 0 := x1_quad ⟨c0, Ka⟩ hc hK
  have hq' : y * y + Ka' * y - Ka' * c0 = 0 := x1_quad ⟨c0, Ka'⟩ hc hK'
  have hx0 : 0 < x := x1_pos ⟨c0, Ka⟩ hc hK
  have hy0 : 0 < y := x1_pos ⟨c0, Ka'⟩ hc hK'
  have hxc : x ≤ c0 := x1_le_c0 ⟨c0, Ka⟩ hc hK
  have hyc : y ≤ c0 := x1_le_c0 ⟨c0, Ka'⟩ hc hK'
  by_contra hlt
  push_neg at hlt
  nlinarith [mul_nonneg (sub_nonneg.mpr hKK) (sub_nonneg.mpr hyc),
    mul_pos hK (sub_pos.mpr hlt), mul_pos (add_pos hx0 hy0) (sub_pos.mpr hlt)]

theorem C5_witness :
    (⟨1, 1, 1, 0⟩ : EquilibriumResult).h_plus ≤
      (⟨1, 1, 1, 0⟩ : EquilibriumResult).h_plus :=
  C5_monotone_in_Ka 2 1 1 (by norm_num) (by norm_num) (by norm_num)
    ⟨1, 1, 1, 0⟩ ⟨1, 1, 1, 0⟩ solve_two_one solve_two_one

/-! ### Exact error conditions -/

theorem solve_error_noreal_iff (s : WeakAcidSystem) :
    solve_equilibrium s = .error .NoRealSolution ↔ disc s < 0 := by
  constructor
  · intro h
    by_contra hd
    rcases hm : (candidates s).max? with _ | x
    · rw [solve_of_selectRoot_error
        (selectRoot_of_nil hd (List.max?_eq_none_iff.mp hm))] at h
      simp at h
    · have hsel := selectRoot_of_max hd hm
      by_cases hx : x ≤ 0
      · rw [solve_of_selectRoot_ok_nonpos hsel hx] at h; simp at h
      · rw [solve_of_selectRoot_ok_pos hsel hx] at h; simp at h
  · intro hd
    exact solve_of_selectRoot_error (selectRoot_of_neg hd)

theorem solve_error_nophys_iff (s : WeakAcidSystem) :
    solve_equilibrium s = .error .NoPhysicalSolution ↔
      ¬disc s < 0 ∧ candidates s = [] := by
  constructor
  · intro h
    by_cases hd : disc s < 0
    · rw [solve_of_selectRoot_error (selectRoot_of_neg hd)] at h
      simp at h
    · rcases hm : (candidates s).max? with _ | x
      · exact ⟨hd, List.max?_eq_none_iff.mp hm⟩
      · have hsel := selectRoot_of_max hd hm
        by_cases hx : x ≤ 0
        · rw [solve_of_selectRoot_ok_nonpos hsel hx] at h; simp at h
        · rw [solve_of_selectRoot_ok_pos hsel hx] at h; simp at h
  · intro h
    exact solve_of_selectRoot_error (selectRoot_of_nil h.1 h.2)

theorem selectRoot_ok_of_candidate {s : WeakAcidSystem} (hd : ¬disc s < 0)
    (hne : candidates s ≠ []) : ∃ x, selectRoot s = .ok x := by
  rcases hm : (candidates s).max? with _ | x
  · exact absurd (List.max?_eq_none_iff.mp hm) hne
  · exact ⟨x, selectRoot_of_max hd hm⟩

/-- C2: `solve_equilibrium` fails with NoRealSolution exactly when the
discriminant is negative, fails with NoPhysicalSolution exactly when the
discriminant is nonnegative but neither root lies in [0, c0], and in
every other case it passes both checks and proceeds past the
root-selection stage (lines 30-42) with a selected root. -/
theorem C2_error_conditions (s : WeakAcidSystem) :
    (solve_equilibrium s = .error .NoRealSolution ↔ disc s < 0) ∧
    (solve_equilibrium s = .error .NoPhysicalSolution ↔
      0 ≤ disc s ∧ ¬(0 ≤ x1 s ∧ x1 s ≤ s.c0) ∧ ¬(0 ≤ x2 s ∧ x2 s ≤ s.c0)) ∧
    (0 ≤ disc s →
      (0 ≤ x1 s ∧ x1 s ≤ s.c0) ∨ (0 ≤ x2 s ∧ x2 s ≤ s.c0) →
      ∃ x, selectRoot s = .ok x) := by
  refine ⟨solve_error_noreal_iff s, ?_, ?_⟩
  · rw [solve_error_nophys_iff s, candidates_eq_nil_iff s, not_lt]
  · intro hd hor
    apply selectRoot_ok_of_candidate (not_lt.mpr hd)
    intro hnil
    obtain ⟨h1, h2⟩ := (candidates_eq_nil_iff s).mp hnil
    rcases hor with h | h
    · exact h1 h
    · exact h2 h

theorem C2_witness :
    (solve_equilibrium ⟨2, 1⟩ = .error .NoRealSolution ↔ disc ⟨2, 1⟩ < 0) ∧
    (solve_equilibrium ⟨2, 1⟩ = .error .NoPhysicalSolution ↔
      0 ≤ disc ⟨2, 1⟩ ∧ ¬(0 ≤ x1 ⟨2, 1⟩ ∧ x1 ⟨2, 1⟩ ≤ (2 : ℝ)) ∧
        ¬(0 ≤ x2 ⟨2, 1⟩ ∧ x2 ⟨2, 1⟩ ≤ (2 : ℝ))) ∧
    (0 ≤ disc ⟨2, 1⟩ →
      (0 ≤ x1 ⟨2, 1⟩ ∧ x1 ⟨2, 1⟩ ≤ (2 : ℝ)) ∨
        (0 ≤ x2 ⟨2, 1⟩ ∧ x2 ⟨2, 1⟩ ≤ (2 : ℝ)) →
      ∃ x, selectRoot ⟨2, 1⟩ = .ok x) :=
  C2_error_conditions ⟨2, 1⟩

/-- C7: the invalid input c0 = −1, Ka = 1 makes the discriminant
1 − 4 = −3 negative, so `solve_equilibrium` raises one of the two
solver-level errors (in fact NoRealSolution) instead of returning a
record. -/
theorem C7_invalid_input_raises :
    solve_equilibrium ⟨-1, 1⟩ = .error .NoRealSolution ∨
      solve_equilibrium ⟨-1, 1⟩ = .error .NoPhysicalSolution := by
  left
  apply solve_of_selectRoot_error
  apply selectRoot_of_neg
  unfold disc
  norm_num

/-- C10: at the boundary input c0 = 0 with Ka > 0, the discriminant check
and the physical filter both pass and the selected root is 0, but the pH
computation applies `math.log10` to 0 and raises its math domain error,
an error distinct from NoRealSolution and NoPhysicalSolution, instead of
returning a result. -/
theorem C10_boundary_log_domain (Ka : ℝ) (hK : 0 < Ka) :
    ¬disc ⟨0, Ka⟩ < 0 ∧ candidates ⟨0, Ka⟩ = [0] ∧
      selectRoot ⟨0, Ka⟩ = .ok 0 ∧
      solve_equilibrium ⟨0, Ka⟩ = .error .MathDomainError := by
  have hdisc : disc ⟨0, Ka⟩ = Ka * Ka := by unfold disc; ring
  have hd : ¬disc ⟨0, Ka⟩ < 0 := by
    rw [hdisc]; exact not_lt.mpr (mul_self_nonneg Ka)
  have hsqrt : Real.sqrt (disc ⟨0, Ka⟩) = Ka := by
    rw [hdisc, Real.sqrt_mul_self hK.le]
  have hx1 : x1 ⟨0, Ka⟩ = 0 := by unfold x1; rw [hsqrt]; ring
  have hx2 : x2 ⟨0, Ka⟩ = -Ka := by unfold x2; rw [hsqrt]; ring
  have hcand : candidates ⟨0, Ka⟩ = [0] := by
    have h1 : 0 ≤ x1 ⟨0, Ka⟩ ∧ x1 ⟨0, Ka⟩ ≤ (0 : ℝ) := by rw [hx1]; simp
    have h2 : ¬(0 ≤ x2 ⟨0, Ka⟩ ∧ x2 ⟨0, Ka⟩ ≤ (0 : ℝ)) := by
      rw [hx2]
      intro h
      linarith [h.1]
    simp [candidates, List.filter, h1, h2, hx1]
  have hsel : selectRoot ⟨0, Ka⟩ = .ok 0 := by
    unfold selectRoot
    rw [if_neg hd, hcand]
    rfl
  exact ⟨hd, hcand, hsel, solve_of_selectRoot_ok_nonpos hsel le_rfl⟩

theorem C10_witness :
    ¬disc ⟨0, 1⟩ < 0 ∧ candidates ⟨0, 1⟩ = [0] ∧
      selectRoot ⟨0, 1⟩ = .ok 0 ∧
      solve_equilibrium ⟨0, 1⟩ = .error .MathDomainError :=
  C10_boundary_log_domain 1 (by norm_num)

/-! ### The concrete scenario c0 = 0.1, Ka = 1.8e-5 -/

theorem disc_scenario : disc ⟨0.1, 1.8e-5⟩ = 7200324 / 10 ^ 12 := by
  unfold disc; norm_num

theorem sqrt_disc_scenario_low :
    (26814 / 10 ^ 7 : ℝ) ≤ Real.sqrt (disc ⟨0.1, 1.8e-5⟩) := by
  rw [disc_scenario]
  apply Real.le_sqrt_of_sq_le
  norm_num

theorem sqrt_disc_scenario_high :
    Real.sqrt (disc ⟨0.1, 1.8e-5⟩) ≤ 26854 / 10 ^ 7 := by
  rw [disc_scenario,
    show (26854 / 10 ^ 7 : ℝ) = Real.sqrt ((26854 / 10 ^ 7) ^ 2) from
      (Real.sqrt_sq (by norm_num)).symm]
  apply Real.sqrt_le_sqrt
  norm_num

theorem x1_scenario_low : (13317 / 10 ^ 7 : ℝ) ≤ x1 ⟨0.1, 1.8e-5⟩ := by
  have h := sqrt_disc_scenario_low
  unfold x1
  dsimp only
  norm_num at h ⊢
  linarith

theorem x1_scenario_high : x1 ⟨0.1, 1.8e-5⟩ ≤ 13337 / 10 ^ 7 := by
  have h := sqrt_disc_scenario_high
  unfold x1
  dsimp only
  norm_num at h ⊢
  linarith

theorem x1_scenario_pos : 0 < x1 ⟨0.1, 1.8e-5⟩ :=
  x1_pos ⟨0.1, 1.8e-5⟩ (by norm_num) (by norm_num)

theorem pH_scenario_low :
    (2.874 : ℝ) < -(Real.logb 10 (x1 ⟨0.1, 1.8e-5⟩)) := by
  have hx : 0 < x1 ⟨0.1, 1.8e-5⟩ := x1_scenario_pos
  have h1 : x1 ⟨0.1, 1.8e-5⟩ ^ 500 ≤ (13337 / 10 ^ 7 : ℝ) ^ 500 :=
    pow_le_pow_left₀ hx.le x1_scenario_high 500
  have h2 : ((13337 / 10 ^ 7 : ℝ)) ^ 500 < ((10 : ℝ) ^ 1437)⁻¹ := by
    rw [div_pow, inv_eq_one_div, div_lt_div_iff₀ (by positivity) (by positivity)]
    norm_num
  have h4 := Real.log_lt_log (pow_pos hx 500) (lt_of_le_of_lt h1 h2)
  rw [Real.log_pow, Real.log_inv, Real.log_pow] at h4
  push_cast at h4
  have hlog10 : 0 < Real.log 10 := Real.log_pos (by norm_num)
  have h5 : Real.logb 10 (x1 ⟨0.1, 1.8e-5⟩) < -2.874 := by
    rw [Real.logb, div_lt_iff₀ hlog10]
    nlinarith
  linarith

theorem pH_scenario_high :
    -(Real.logb 10 (x1 ⟨0.1, 1.8e-5⟩)) < 2.876 := by
  have hx : 0 < x1 ⟨0.1, 1.8e-5⟩ := x1_scenario_pos
  have h1 : (13317 / 10 ^ 7 : ℝ) ^ 250 ≤ x1 ⟨0.1, 1.8e-5⟩ ^ 250 :=
    pow_le_pow_left₀ (by norm_num) x1_scenario_low 250
  have h2 : ((10 : ℝ) ^ 719)⁻¹ < ((13317 / 10 ^ 7 : ℝ)) ^ 250 := by
    rw [div_pow, inv_eq_one_div, div_lt_div_iff₀ (by positivity) (by positivity)]
    norm_num
  have h4 := Real.log_lt_log (by positivity) (lt_of_lt_of_le h2 h1)
  rw [Real.log_pow, Real.log_inv, Real.log_pow] at h4
  push_cast at h4
  have hlog10 : 0 < Real.log 10 := Real.log_pos (by norm_num)
  have h5 : -2.876 < Real.logb 10 (x1 ⟨0.1, 1.8e-5⟩) := by
    rw [Real.logb, lt_div_iff₀ hlog10]
    nlinarith
  linarith

/-- C6, counterexample: at c0 = 0.1, Ka = 1.8e-5 the code's h_plus is the
exact quadratic root 1.33267...e-3, which differs from the claimed
1.3404e-3 by about 7.7e-6; even at the generous absolute tolerance 1e-6
(20 units in the claim's last displayed digit) the claimed approximate
values are not attained. -/
theorem C6_counterexample :
    ¬∃ r, solve_equilibrium ⟨0.1, 1.8e-5⟩ = .ok r ∧
        |r.h_plus - 1.3404e-3| ≤ 1e-6 ∧ |r.pH - 2.872| ≤ 1e-3 := by
  rintro ⟨r, hok, hh, -⟩
  rw [solve_of_pos ⟨0.1, 1.8e-5⟩ (by norm_num) (by norm_num)] at hok
  obtain rfl := Except.ok.inj hok
  have hh' : |x1 ⟨0.1, 1.8e-5⟩ - 1.3404e-3| ≤ 1e-6 := hh
  rw [abs_le] at hh'
  have := x1_scenario_high
  have h1 := hh'.1
  norm_num at h1 this
  linarith

/-- C6, amended: at c0 = 0.1, Ka = 1.8e-5 the solver succeeds with
h_plus within 1e-6 of 1.3327e-3 and pH strictly between 2.874 and 2.876
(so pH ≈ 2.875, not 2.872, and h_plus ≈ 1.3327e-3, not 1.3404e-3). -/
theorem C6_scenario_amended :
    ∃ r, solve_equilibrium ⟨0.1, 1.8e-5⟩ = .ok r ∧
      |r.h_plus - 1.3327e-3| ≤ 1e-6 ∧ 2.874 < r.pH ∧ r.pH < 2.876 := by
  refine ⟨_, solve_of_pos ⟨0.1, 1.8e-5⟩ (by norm_num) (by norm_num), ?_, ?_, ?_⟩
  · show |x1 ⟨0.1, 1.8e-5⟩ - 1.3327e-3| ≤ 1e-6
    rw [abs_le]
    have h1 := x1_scenario_low
    have h2 := x1_scenario_high
    norm_num at h1 h2 ⊢
    constructor <;> linarith
  · exact pH_scenario_low
  · exact pH_scenario_high

end ChemEquilibrium
